import Mathlib

set_option maxHeartbeats 1000000

/-!
Shallow embedding of the multi-node resilient XAI client
(src/blockscout-adapter/src/xai_client.py): per-node health records and
their success/failure transitions, client construction, the node
selection strategies, failover ordering, the request executor loop, and
the status snapshot. Wall-clock readings, network outcomes and the
random generator are supplied as explicit parameters/oracles; Python
floats are modelled as rationals; the counters do not overflow in the
source, so Nat/Int are used directly.
-/

/-- Health record of one node, mirroring dataclass `NodeHealth` and its
field defaults (`is_healthy=True`, counters and timestamps 0, empty
error). -/
structure NodeHealth where
  url : String
  is_healthy : Bool := true
  last_check : ℚ := 0
  consecutive_failures : Nat := 0
  response_time_ms : ℚ := 0
  chain_height : Int := 0
  last_error : String := ""
deriving DecidableEq

/-- Fresh record created for a configured url, `NodeHealth(url=url)`. -/
def NodeHealth.init (u : String) : NodeHealth := { url := u }

/-- `NodeHealth.mark_success(response_time_ms, chain_height=0)`. The
Python default argument `chain_height=0` is passed explicitly by the
callers modelled here (the request path passes 0); `now` models the
`time.time()` reading inside the method. -/
def NodeHealth.mark_success (n : NodeHealth) (response_time_ms : ℚ)
    (chain_height : Int) (now : ℚ) : NodeHealth :=
  { n with
    is_healthy := true,
    consecutive_failures := 0,
    response_time_ms := response_time_ms,
    last_check := now,
    chain_height := if chain_height > 0 then chain_height else n.chain_height,
    last_error := "" }

/-- `NodeHealth.mark_failure(error)`: increment the counter, record the
error and timestamp, and flip `is_healthy` to false once the incremented
counter reaches 3 (otherwise the flag keeps its previous value). -/
def NodeHealth.mark_failure (n : NodeHealth) (error : String) (now : ℚ) :
    NodeHealth :=
  { n with
    consecutive_failures := n.consecutive_failures + 1,
    last_error := error,
    last_check := now,
    is_healthy := if n.consecutive_failures + 1 ≥ 3 then false else n.is_healthy }

/-- One health-affecting event applied to a record: a success (probe or
request outcome) or a failure. -/
inductive HealthEvent where
  | success (response_time_ms : ℚ) (chain_height : Int) (now : ℚ)
  | failure (error : String) (now : ℚ)
deriving DecidableEq

/-- Apply one event to a record via the corresponding transition. -/
def NodeHealth.applyEvent (n : NodeHealth) : HealthEvent → NodeHealth
  | .success t h now => n.mark_success t h now
  | .failure e now => n.mark_failure e now

/-- Run a sequence of success/failure events on a record. -/
def runEvents (n : NodeHealth) (evs : List HealthEvent) : NodeHealth :=
  evs.foldl NodeHealth.applyEvent n

/-- Reachability invariant of a record: the healthy flag is exactly the
statement that fewer than 3 consecutive failures have accumulated. -/
def healthInv (n : NodeHealth) : Prop :=
  n.is_healthy = true ↔ n.consecutive_failures < 3

/-- `XAIClientConfig` with the source's defaults; the fields not used by
the health/selection/failover logic are kept for fidelity. -/
structure XAIClientConfig where
  node_urls : List String := ["http://127.0.0.1:12570", "http://127.0.0.1:12571"]
  timeout : ℚ := 30
  max_retries : Nat := 3
  health_check_interval : ℚ := 30
  load_balance_strategy : String := "fastest"
deriving DecidableEq

/-- Mutable state of an `XAIClient`: configuration, the per-url health
records (`self._nodes`, a dict whose iteration order is key insertion
order, modelled as a list in that order), and the round-robin cursor
`self._current_index`. -/
structure ClientState where
  config : XAIClientConfig
  nodes : List NodeHealth
  current_index : Nat
deriving DecidableEq

/-- Keys of a Python dict comprehension over a list: first-occurrence
order, duplicates collapsed. -/
def firstOccs (l : List String) : List String :=
  l.foldl (fun acc u => if u ∈ acc then acc else acc ++ [u]) []

/-- `XAIClient.__init__`: build one fresh record per configured url (in
dict insertion order) and set the cursor to 0. The constructor performs
no validation of the url list or the strategy name. -/
def initClient (config : XAIClientConfig) : ClientState :=
  { config := config,
    nodes := (firstOccs config.node_urls).map NodeHealth.init,
    current_index := 0 }

/-- Python `min(nodes, key=lambda n: n.response_time_ms)` with `best` the
running minimum: a later element replaces it only when strictly smaller,
so the first minimal element wins. -/
def minByLatency (best : NodeHealth) : List NodeHealth → NodeHealth
  | [] => best
  | n :: rest =>
      minByLatency (if n.response_time_ms < best.response_time_ms then n else best) rest

/-- `XAIClient._select_node`. `randPick` is the oracle for
`random.choice` (an arbitrary index, reduced modulo the healthy-set
size); the result is `none` exactly when the Python code raises
`IndexError` (`node_urls[0]` with an empty configured list), and
otherwise the selected url paired with the possibly updated state (only
the round-robin branch mutates the cursor). -/
def selectNode (st : ClientState) (randPick : Nat) : Option (String × ClientState) :=
  match st.nodes.filter (fun n => n.is_healthy) with
  | [] => st.config.node_urls.head?.map (fun u => (u, st))
  | h :: t =>
      if st.config.load_balance_strategy = "round_robin" then
        some (((h :: t).get ⟨(st.current_index + 1) % (h :: t).length,
                Nat.mod_lt _ (Nat.succ_pos t.length)⟩).url,
              { st with current_index := (st.current_index + 1) % (h :: t).length })
      else if st.config.load_balance_strategy = "fastest" then
        some ((minByLatency h t).url, st)
      else if st.config.load_balance_strategy = "random" then
        some (((h :: t).get ⟨randPick % (h :: t).length,
                Nat.mod_lt _ (Nat.succ_pos t.length)⟩).url, st)
      else
        some (h.url, st)

/-- `XAIClient._get_ordered_nodes`: the selected url first, then the
remaining healthy records' urls, then the unhealthy records' urls (the
selected url is not excluded from the unhealthy tail, exactly as in the
source). -/
def getOrderedNodes (st : ClientState) (randPick : Nat) :
    Option (List String × ClientState) :=
  (selectNode st randPick).map (fun p =>
    (p.1 ::
      ((p.2.nodes.filter (fun n => n.is_healthy && n.url != p.1)).map (fun n => n.url)
        ++ (p.2.nodes.filter (fun n => !n.is_healthy)).map (fun n => n.url)),
     p.2))

/-- Outcome of one HTTP attempt inside `_request`, as seen by the
`try` block: a transport/status error (raised by the call or by
`raise_for_status`), a success status with a parseable body, or a
success status whose body `response.json()` fails to parse. `now`
models the `time.time()` readings consumed by the transitions. -/
inductive AttemptOutcome where
  | httpError (error : String) (now : ℚ)
  | okBody (response_time_ms : ℚ) (body : String) (now : ℚ)
  | okBadBody (response_time_ms : ℚ) (error : String) (now : ℚ) (now2 : ℚ)
deriving DecidableEq

/-- An attempt that does not return from `_request` (its `try` block
raises at some point). -/
def AttemptOutcome.isFailure : AttemptOutcome → Bool
  | .okBody _ _ _ => false
  | _ => true

/-- The error message the `except` branch records for a failing
attempt. -/
def AttemptOutcome.errorOf : AttemptOutcome → String
  | .httpError e _ => e
  | .okBadBody _ e _ _ => e
  | .okBody _ _ _ => ""

/-- Net record update performed by one failing attempt: a transport or
status error runs `mark_failure` only, while a success status with a
malformed body runs `mark_success` (line 206 of the source precedes the
`response.json()` call) and then `mark_failure` in the `except` branch. -/
def failStepNode (o : AttemptOutcome) (n : NodeHealth) : NodeHealth :=
  match o with
  | .httpError e now => n.mark_failure e now
  | .okBadBody t e now now2 => (n.mark_success t 0 now).mark_failure e now2
  | .okBody _ _ _ => n

/-- In-place mutation of the record stored under `url` in `self._nodes`
(urls are the dict keys, hence unique in any state built by
`initClient`). -/
def updateNode (nodes : List NodeHealth) (url : String) (f : NodeHealth → NodeHealth) :
    List NodeHealth :=
  nodes.map (fun n => if n.url = url then f n else n)

/-- Result of `_request`: a parsed body, the re-raised last error, or
the degenerate `raise None` that Python would perform if the url list
were empty (never reachable through `_get_ordered_nodes`). -/
inductive ReqResult where
  | ok (body : String)
  | failed (error : String)
  | raisedNone
deriving DecidableEq

/-- Failover loop of `XAIClient._request` over an already ordered url
list: walk the urls in order; a failing attempt applies its net record
update and retains its error as `last_error`; the first succeeding
attempt applies `mark_success` (with the request path's implicit
`chain_height=0`) and returns the body at once. `oracle i` is the
outcome of the i-th attempt of this call. -/
def requestLoop (oracle : Nat → AttemptOutcome) :
    List String → Nat → Option String → ClientState → ReqResult × ClientState
  | [], _, none, st => (ReqResult.raisedNone, st)
  | [], _, some e, st => (ReqResult.failed e, st)
  | url :: rest, i, _lastErr, st =>
      match oracle i with
      | .httpError e now =>
          requestLoop oracle rest (i + 1) (some e)
            { st with nodes := updateNode st.nodes url (fun n => n.mark_failure e now) }
      | .okBody t body now =>
          (ReqResult.ok body,
           { st with nodes := updateNode st.nodes url (fun n => n.mark_success t 0 now) })
      | .okBadBody t e now now2 =>
          requestLoop oracle rest (i + 1) (some e)
            { st with
              nodes := updateNode st.nodes url
                (fun n => (n.mark_success t 0 now).mark_failure e now2) }

/-- Cumulative record updates of a run of consecutive failing attempts,
used to state what the executor leaves behind. -/
def foldFailures (oracle : Nat → AttemptOutcome) :
    List String → Nat → List NodeHealth → List NodeHealth
  | [], _, nodes => nodes
  | url :: rest, i, nodes =>
      foldFailures oracle rest (i + 1) (updateNode nodes url (failStepNode (oracle i)))

/-- `XAIClient._request` end to end: order the nodes, then run the
failover loop; `none` models the `IndexError` escaping from
`_select_node` before the loop starts. -/
def request (st : ClientState) (randPick : Nat) (oracle : Nat → AttemptOutcome) :
    Option (ReqResult × ClientState) :=
  (getOrderedNodes st randPick).map (fun p => requestLoop oracle p.1 0 none p.2)

/-- Outcome of one health probe in `_check_node_health`: any error in
the `try` block — including a malformed `/stats` body, since there
`response.json()` runs before `mark_success` — is a failure. -/
inductive ProbeOutcome where
  | failed (error : String) (now : ℚ)
  | ok (response_time_ms : ℚ) (chain_height : Int) (now : ℚ)
deriving DecidableEq

/-- `XAIClient._check_node_health` acting on the probed record. -/
def checkNodeHealth (n : NodeHealth) (o : ProbeOutcome) : NodeHealth :=
  match o with
  | .failed e now => n.mark_failure e now
  | .ok t h now => n.mark_success t h now

/-- One row of `get_nodes_status`. -/
structure StatusEntry where
  url : String
  is_healthy : Bool
  chain_height : Int
  response_time_ms : ℚ
  consecutive_failures : Nat
  last_error : String
  last_check : ℚ
deriving DecidableEq

/-- Python `round(x, 2)` modelled on rationals (the tie-breaking mode of
float rounding is irrelevant to every property stated here). -/
def roundTo2 (x : ℚ) : ℚ := ((round (x * 100) : Int) : ℚ) / 100

/-- The status row built for one record. -/
def statusOf (n : NodeHealth) : StatusEntry :=
  { url := n.url,
    is_healthy := n.is_healthy,
    chain_height := n.chain_height,
    response_time_ms := roundTo2 n.response_time_ms,
    consecutive_failures := n.consecutive_failures,
    last_error := n.last_error,
    last_check := n.last_check }

/-- `XAIClient.get_nodes_status`, in state-passing form so that its
effect on the client state is part of the statement: it builds the
snapshot and leaves the state untouched. -/
def get_nodes_status (st : ClientState) : List StatusEntry × ClientState :=
  (st.nodes.map statusOf, st)

/-- `XAIClient.get_healthy_node_count`. -/
def get_healthy_node_count (st : ClientState) : Nat :=
  (st.nodes.filter (fun n => n.is_healthy)).length

/-- Two-endpoint configuration used by the concrete states below. -/
def cfgAB (strategy : String) : XAIClientConfig :=
  { node_urls := ["a", "b"], load_balance_strategy := strategy }

/-- Client in which both records have been driven unhealthy by three
failure transitions each (reachable from `initClient` via three failed
probe rounds). -/
def stAllUnhealthy : ClientState :=
  { initClient (cfgAB "fastest") with
    nodes := (initClient (cfgAB "fastest")).nodes.map
      (fun n => ((n.mark_failure "down" 1).mark_failure "down" 2).mark_failure "down" 3) }

/-- Client in which node "a" has served one successful request (latency
50) and node "b" has never been interacted with: its record is still the
fresh one, with the default latency field 0. -/
def stLatency : ClientState :=
  { initClient (cfgAB "fastest") with
    nodes := updateNode (initClient (cfgAB "fastest")).nodes "a"
      (fun n => n.mark_success 50 0 100) }

/-- Client in which node "a" already carries 2 consecutive failures
(still healthy) and node "b" is fresh. -/
def stTwoFailures : ClientState :=
  { initClient (cfgAB "fastest") with
    nodes := updateNode (initClient (cfgAB "fastest")).nodes "a"
      (fun n => (n.mark_failure "x" 1).mark_failure "x" 2) }

/-- Attempt oracle in which every attempt returns a success status whose
body fails to parse. -/
def malformedOracle : Nat → AttemptOutcome :=
  fun _ => AttemptOutcome.okBadBody 9 "Expecting value: line 1 column 1 (char 0)" 3 4

/-- Attempt oracle in which the first attempt fails at the transport
level and every later attempt succeeds. -/
def failThenOkOracle : Nat → AttemptOutcome :=
  fun i => if i = 0 then AttemptOutcome.httpError "boom" 1 else AttemptOutcome.okBody 5 "resp" 2

lemma healthInv_init (u : String) : healthInv (NodeHealth.init u) := by
  simp [healthInv, NodeHealth.init]

lemma healthInv_applyEvent (n : NodeHealth) (e : HealthEvent)
    (h : healthInv n) : healthInv (n.applyEvent e) := by
  cases e with
  | success t ht now =>
      simp [healthInv, NodeHealth.applyEvent, NodeHealth.mark_success]
  | failure msg now =>
      simp only [healthInv, NodeHealth.applyEvent, NodeHealth.mark_failure] at h ⊢
      split_ifs with hc
      · simp only [Bool.false_eq_true, false_iff]
        omega
      · rw [h]
        omega

lemma healthInv_runEvents (n : NodeHealth) (evs : List HealthEvent)
    (h : healthInv n) : healthInv (runEvents n evs) := by
  induction evs generalizing n with
  | nil => exact h
  | cons e rest ih =>
      exact ih _ (healthInv_applyEvent n e h)

/-- Claim C1: starting from the initial record (healthy, zero
consecutive failures), after any sequence of success/failure transitions
the healthy flag is false exactly when at least 3 consecutive failures
have accumulated; one further failure transition leaves/makes it false
exactly when the counter was already at least 2 (i.e. the flag becomes
false precisely when a failure brings the counter to the threshold 3 and
stays false for every further failure); and a single success transition
always restores the flag to true and resets the counter to 0, with no
minimum healthy streak required. -/
theorem claim_C1_health_threshold (u : String) (evs : List HealthEvent) :
    ((runEvents (NodeHealth.init u) evs).is_healthy = true ↔
      (runEvents (NodeHealth.init u) evs).consecutive_failures < 3)
    ∧ (∀ e now,
        (((runEvents (NodeHealth.init u) evs).mark_failure e now).is_healthy = false ↔
          2 ≤ (runEvents (NodeHealth.init u) evs).consecutive_failures))
    ∧ (∀ t h now,
        ((runEvents (NodeHealth.init u) evs).mark_success t h now).is_healthy = true
        ∧ ((runEvents (NodeHealth.init u) evs).mark_success t h now).consecutive_failures = 0) := by
  have hinv : healthInv (runEvents (NodeHealth.init u) evs) :=
    healthInv_runEvents _ _ (healthInv_init u)
  refine ⟨hinv, ?_, ?_⟩
  · intro e now
    simp only [NodeHealth.mark_failure]
    split_ifs with hc
    · simp only [true_iff]
      omega
    · have h1 : (runEvents (NodeHealth.init u) evs).consecutive_failures < 3 := by omega
      have h2 := hinv.mpr h1
      simp only [h2, Bool.true_eq_false, false_iff]
      omega
  · intro t h now
    simp [NodeHealth.mark_success]

/-- Concrete instance of claim C1: after two failures the record is
still healthy; the theorem at that state yields that a third failure
flips the flag false and a success resets it. -/
theorem claim_C1_witness :
    ((runEvents (NodeHealth.init "a") [.failure "e1" 1, .failure "e2" 2]).is_healthy = true ↔
      (runEvents (NodeHealth.init "a") [.failure "e1" 1, .failure "e2" 2]).consecutive_failures < 3)
    ∧ (∀ e now,
        (((runEvents (NodeHealth.init "a") [.failure "e1" 1, .failure "e2" 2]).mark_failure e now).is_healthy = false ↔
          2 ≤ (runEvents (NodeHealth.init "a") [.failure "e1" 1, .failure "e2" 2]).consecutive_failures))
    ∧ (∀ t h now,
        ((runEvents (NodeHealth.init "a") [.failure "e1" 1, .failure "e2" 2]).mark_success t h now).is_healthy = true
        ∧ ((runEvents (NodeHealth.init "a") [.failure "e1" 1, .failure "e2" 2]).mark_success t h now).consecutive_failures = 0) :=
  claim_C1_health_threshold "a" [.failure "e1" 1, .failure "e2" 2]

/-- Claim C3 fails on the code: in the concrete all-unhealthy client
below, the selected url (the first configured one) is not excluded from
the unhealthy tail of `_get_ordered_nodes`, so the ordered list is
["a", "a", "b"] — the first configured endpoint appears twice, and the
list is not the configured list ["a", "b"]. -/
theorem claim_C3_counterexample :
    (∀ n ∈ stAllUnhealthy.nodes, n.is_healthy = false)
    ∧ stAllUnhealthy.config.node_urls = ["a", "b"]
    ∧ getOrderedNodes stAllUnhealthy 0 = some (["a", "a", "b"], stAllUnhealthy)
    ∧ (["a", "a", "b"] : List String) ≠ ["a", "b"]
    ∧ (["a", "a", "b"] : List String).count "a" ≠ 1 := by
  refine ⟨by decide, rfl, by decide, by decide, by decide⟩

/-- Claim C4 fails on the code: in the client below both nodes are
healthy, node "b" has never had a successful interaction (its record is
the fresh one, latency field still the default 0) while node "a" has a
recorded latency of 50; under the "fastest" strategy the code selects
"b" first — the never-measured node sorts first, not last, so the
ordered list is ["b", "a"] instead of the ["a", "b"] the claim
demands. -/
theorem claim_C4_counterexample :
    (∀ n ∈ stLatency.nodes, n.is_healthy = true)
    ∧ (∃ n ∈ stLatency.nodes, n = NodeHealth.init "b")
    ∧ (∃ n ∈ stLatency.nodes, n.url = "a" ∧ n.response_time_ms = 50)
    ∧ stLatency.config.load_balance_strategy = "fastest"
    ∧ getOrderedNodes stLatency 0 = some (["b", "a"], stLatency)
    ∧ (["b", "a"] : List String) ≠ ["a", "b"] := by
  refine ⟨by decide, by decide, by decide, rfl, by decide, by decide⟩

/-- Claim C5 fails on the code: `__init__` performs no validation, so
constructing a client with an empty endpoint list and an unrecognized
strategy succeeds and yields a usable client value; the empty list only
surfaces later, as a failed selection (`none`, the Python IndexError),
and an unrecognized strategy silently selects the first healthy node. -/
theorem claim_C5_counterexample :
    initClient { node_urls := [], load_balance_strategy := "bogus" } =
      { config := { node_urls := [], load_balance_strategy := "bogus" },
        nodes := [], current_index := 0 }
    ∧ selectNode (initClient { node_urls := [], load_balance_strategy := "bogus" }) 0 = none
    ∧ selectNode (initClient { node_urls := ["u"], load_balance_strategy := "bogus" }) 0 =
        some ("u", initClient { node_urls := ["u"], load_balance_strategy := "bogus" }) := by
  refine ⟨by decide, by decide, by decide⟩

/-- Claim C7 against the code (code bug): a request attempt that returns
a success status with a malformed body runs `mark_success` (line 206 of
xai_client.py, before `response.json()`) and then `mark_failure`, not
the failure transition alone. Concretely: node "a" starts with 2
consecutive failures; a malformed-body attempt leaves it healthy with 1
consecutive failure and an updated latency of 9, and the executor then
walks on to "b" and finally re-raises the last parse error. Had only
`mark_failure` been applied — as the claim, the spec (section 4.2/7)
and the probe path `_check_node_health` (which parses the body before
`mark_success`) prescribe — the record would have reached 3 consecutive
failures and turned unhealthy, as the last two conjuncts compute. -/
theorem claim_C7_code_behavior :
    ((requestLoop malformedOracle ["a", "b"] 0 none stTwoFailures).2).nodes.map
        (fun n => (n.url, n.is_healthy, n.consecutive_failures, n.response_time_ms))
      = [("a", true, 1, (9 : ℚ)), ("b", true, 1, 9)]
    ∧ (requestLoop malformedOracle ["a", "b"] 0 none stTwoFailures).1 =
        ReqResult.failed "Expecting value: line 1 column 1 (char 0)"
    ∧ stTwoFailures.nodes.map (fun n => (n.url, n.is_healthy, n.consecutive_failures))
      = [("a", true, 2), ("b", true, 0)]
    ∧ ((((NodeHealth.init "a").mark_failure "x" 1).mark_failure "x" 2).mark_failure
        "Expecting value: line 1 column 1 (char 0)" 4).is_healthy = false
    ∧ ((((NodeHealth.init "a").mark_failure "x" 1).mark_failure "x" 2).mark_failure
        "Expecting value: line 1 column 1 (char 0)" 4).consecutive_failures = 3 := by
  refine ⟨by decide, by decide, by decide, by decide, by decide⟩

lemma failStepNode_httpError (e : String) (now : ℚ) :
    failStepNode (AttemptOutcome.httpError e now) = fun n => n.mark_failure e now := rfl

lemma failStepNode_okBadBody (t : ℚ) (e : String) (now now2 : ℚ) :
    failStepNode (AttemptOutcome.okBadBody t e now now2) =
      fun n => (n.mark_success t 0 now).mark_failure e now2 := rfl

lemma requestLoop_consHttpError (oracle : Nat → AttemptOutcome) (u : String)
    (rest : List String) (i : Nat) (e0 : Option String) (st : ClientState)
    (e : String) (now : ℚ) (ho : oracle i = AttemptOutcome.httpError e now) :
    requestLoop oracle (u :: rest) i e0 st =
      requestLoop oracle rest (i + 1) (some e)
        { st with nodes := updateNode st.nodes u (fun n => n.mark_failure e now) } := by
  simp only [requestLoop, ho]

lemma requestLoop_consOkBadBody (oracle : Nat → AttemptOutcome) (u : String)
    (rest : List String) (i : Nat) (e0 : Option String) (st : ClientState)
    (t : ℚ) (e : String) (now now2 : ℚ)
    (ho : oracle i = AttemptOutcome.okBadBody t e now now2) :
    requestLoop oracle (u :: rest) i e0 st =
      requestLoop oracle rest (i + 1) (some e)
        { st with
          nodes := updateNode st.nodes u
            (fun n => (n.mark_success t 0 now).mark_failure e now2) } := by
  simp only [requestLoop, ho]

lemma foldFailures_cons (oracle : Nat → AttemptOutcome) (u : String)
    (rest : List String) (i : Nat) (nodes : List NodeHealth) :
    foldFailures oracle (u :: rest) i nodes =
      foldFailures oracle rest (i + 1) (updateNode nodes u (failStepNode (oracle i))) := rfl

lemma requestLoop_allFail (oracle : Nat → AttemptOutcome) (urls : List String) :
    ∀ (i : Nat) (e0 : Option String) (st : ClientState),
    (∀ j, j < urls.length → (oracle (i + j)).isFailure = true) → urls ≠ [] →
    requestLoop oracle urls i e0 st =
      (ReqResult.failed ((oracle (i + urls.length - 1)).errorOf),
       { st with nodes := foldFailures oracle urls i st.nodes }) := by
  induction urls with
  | nil => intro i e0 st _ hne; exact absurd rfl hne
  | cons u rest ih =>
      intro i e0 st hfail _
      have h0 : (oracle (i + 0)).isFailure = true := hfail 0 (Nat.succ_pos _)
      rw [Nat.add_zero] at h0
      have hshift : ∀ j, j < rest.length → (oracle (i + 1 + j)).isFailure = true := by
        intro j hj
        have h := hfail (j + 1) (by simp only [List.length_cons]; omega)
        rwa [show i + (j + 1) = i + 1 + j by omega] at h
      cases ho : oracle i with
      | okBody t body now =>
          rw [ho] at h0
          simp [AttemptOutcome.isFailure] at h0
      | httpError e now =>
          cases rest with
          | nil =>
              rw [requestLoop_consHttpError oracle u [] i e0 st e now ho]
              simp [requestLoop, foldFailures_cons, foldFailures, ho,
                failStepNode_httpError, AttemptOutcome.errorOf]
          | cons v vs =>
              have ihres := ih (i + 1) (some e)
                { st with nodes := updateNode st.nodes u (fun n => n.mark_failure e now) }
                hshift (by simp)
              rw [requestLoop_consHttpError oracle u (v :: vs) i e0 st e now ho, ihres]
              have hlen : i + 1 + (v :: vs).length - 1 = i + (u :: v :: vs).length - 1 := by
                simp only [List.length_cons]
                omega
              rw [hlen]
              simp [foldFailures_cons, ho, failStepNode_httpError]
      | okBadBody t e now now2 =>
          cases rest with
          | nil =>
              rw [requestLoop_consOkBadBody oracle u [] i e0 st t e now now2 ho]
              simp [requestLoop, foldFailures_cons, foldFailures, ho,
                failStepNode_okBadBody, AttemptOutcome.errorOf]
          | cons v vs =>
              have ihres := ih (i + 1) (some e)
                { st with
                  nodes := updateNode st.nodes u
                    (fun n => (n.mark_success t 0 now).mark_failure e now2) }
                hshift (by simp)
              rw [requestLoop_consOkBadBody oracle u (v :: vs) i e0 st t e now now2 ho, ihres]
              have hlen : i + 1 + (v :: vs).length - 1 = i + (u :: v :: vs).length - 1 := by
                simp only [List.length_cons]
                omega
              rw [hlen]
              simp [foldFailures_cons, ho, failStepNode_okBadBody]

lemma requestLoop_firstSuccess (oracle : Nat → AttemptOutcome) (urls : List String) :
    ∀ (i : Nat) (e0 : Option String) (st : ClientState) (k : Nat) (t : ℚ)
      (body : String) (now : ℚ) (hk : k < urls.length),
    (∀ j, j < k → (oracle (i + j)).isFailure = true) →
    oracle (i + k) = AttemptOutcome.okBody t body now →
    requestLoop oracle urls i e0 st =
      (ReqResult.ok body,
       { st with
         nodes := updateNode (foldFailures oracle (urls.take k) i st.nodes)
           (urls.get ⟨k, hk⟩) (fun n => n.mark_success t 0 now) }) := by
  induction urls with
  | nil => intro i e0 st k t body now hk; exact absurd hk (by simp)
  | cons u rest ih =>
      intro i e0 st k t body now hk hfail hok
      cases k with
      | zero =>
          rw [Nat.add_zero] at hok
          simp [requestLoop, hok, foldFailures]
      | succ k' =>
          have h0 : (oracle (i + 0)).isFailure = true := hfail 0 (Nat.succ_pos _)
          rw [Nat.add_zero] at h0
          have hk' : k' < rest.length := by
            simp only [List.length_cons] at hk
            omega
          have hshift : ∀ j, j < k' → (oracle (i + 1 + j)).isFailure = true := by
            intro j hj
            have h := hfail (j + 1) (by omega)
            rwa [show i + (j + 1) = i + 1 + j by omega] at h
          have hok' : oracle (i + 1 + k') = AttemptOutcome.okBody t body now := by
            rwa [show i + 1 + k' = i + (k' + 1) by omega]
          cases ho : oracle i with
          | okBody t' b' n' =>
              rw [ho] at h0
              simp [AttemptOutcome.isFailure] at h0
          | httpError e now' =>
              have ihres := ih (i + 1) (some e)
                { st with nodes := updateNode st.nodes u (fun n => n.mark_failure e now') }
                k' t body now hk' hshift hok'
              rw [requestLoop_consHttpError oracle u rest i e0 st e now' ho, ihres]
              simp [foldFailures_cons, ho, failStepNode_httpError]
          | okBadBody t' e now' now2 =>
              have ihres := ih (i + 1) (some e)
                { st with
                  nodes := updateNode st.nodes u
                    (fun n => (n.mark_success t' 0 now').mark_failure e now2) }
                k' t body now hk' hshift hok'
              rw [requestLoop_consOkBadBody oracle u rest i e0 st t' e now' now2 ho, ihres]
              simp [foldFailures_cons, ho, failStepNode_okBadBody]

/-- Claim C2: the executor walks the ordered url list strictly in order.
If every attempt fails, the call returns `failed` carrying exactly the
error of the last attempted endpoint (a single error, not an aggregate),
and the final state carries exactly the cumulative per-attempt failure
updates; if the first success happens at position k, every earlier
endpoint has received its failure update, the k-th endpoint's record
receives the success transition, the body of that attempt is returned,
and no later endpoint is attempted (the final state shows no update
beyond position k). -/
theorem claim_C2_failover (oracle : Nat → AttemptOutcome) (urls : List String)
    (i : Nat) (e0 : Option String) (st : ClientState) :
    ((∀ j, j < urls.length → (oracle (i + j)).isFailure = true) → urls ≠ [] →
      requestLoop oracle urls i e0 st =
        (ReqResult.failed ((oracle (i + urls.length - 1)).errorOf),
         { st with nodes := foldFailures oracle urls i st.nodes }))
    ∧ (∀ (k : Nat) (t : ℚ) (body : String) (now : ℚ) (hk : k < urls.length),
        (∀ j, j < k → (oracle (i + j)).isFailure = true) →
        oracle (i + k) = AttemptOutcome.okBody t body now →
        requestLoop oracle urls i e0 st =
          (ReqResult.ok body,
           { st with
             nodes := updateNode (foldFailures oracle (urls.take k) i st.nodes)
               (urls.get ⟨k, hk⟩) (fun n => n.mark_success t 0 now) })) := by
  constructor
  · intro hfail hne
    exact requestLoop_allFail oracle urls i e0 st hfail hne
  · intro k t body now hk hfail hok
    exact requestLoop_firstSuccess oracle urls i e0 st k t body now hk hfail hok

/-- Concrete instance of claim C2: two endpoints, the first attempt
fails at the transport level and the second succeeds, so the executor
records the failure on "a", the success on "b", and returns the second
attempt's body. -/
theorem claim_C2_witness :
    requestLoop failThenOkOracle ["a", "b"] 0 none (initClient (cfgAB "fastest")) =
      (ReqResult.ok "resp",
       { initClient (cfgAB "fastest") with
         nodes := updateNode
           (foldFailures failThenOkOracle (["a", "b"].take 1) 0
             (initClient (cfgAB "fastest")).nodes)
           (["a", "b"].get ⟨1, by decide⟩) (fun n => n.mark_success 5 0 2) }) :=
  (claim_C2_failover failThenOkOracle ["a", "b"] 0 none (initClient (cfgAB "fastest"))).2
    1 5 "resp" 2 (by decide)
    (fun j hj => by
      have hj0 : j = 0 := by omega
      subst hj0
      decide)
    (by decide)

/-- Claim C3 amended: when no record is healthy and the configured list
is nonempty, `_get_ordered_nodes` returns the first configured endpoint
followed by the whole configured list in configured order — every
configured endpoint is attempted (the degrade-to-try-everything policy
holds), but the list does not equal the configured list: its head is
duplicated, because the selected url is not removed from the unhealthy
tail. -/
theorem claim_C3_all_unhealthy (st : ClientState) (r : Nat) (u0 : String)
    (rest : List String)
    (hn : st.nodes.map NodeHealth.url = st.config.node_urls)
    (hu : st.config.node_urls = u0 :: rest)
    (ha : ∀ n ∈ st.nodes, n.is_healthy = false) :
    getOrderedNodes st r = some (u0 :: st.config.node_urls, st) := by
  have hfilter : st.nodes.filter (fun n => n.is_healthy) = [] := by
    rw [List.filter_eq_nil_iff]
    intro n hm
    simp [ha n hm]
  have hsel : selectNode st r = some (u0, st) := by
    unfold selectNode
    rw [hfilter, hu]
    rfl
  have h1 : st.nodes.filter (fun n => n.is_healthy && n.url != u0) = [] := by
    rw [List.filter_eq_nil_iff]
    intro n hm
    simp [ha n hm]
  have h2 : st.nodes.filter (fun n => !n.is_healthy) = st.nodes := by
    rw [List.filter_eq_self]
    intro n hm
    simp [ha n hm]
  unfold getOrderedNodes
  rw [hsel]
  simp only [Option.map_some', h1, h2, List.map_nil, List.nil_append]
  rw [hn]

/-- Concrete instance of the amended claim C3: both nodes unhealthy, the
ordered list is the first endpoint followed by the configured list. -/
theorem claim_C3_witness :
    getOrderedNodes stAllUnhealthy 0 =
      some ("a" :: stAllUnhealthy.config.node_urls, stAllUnhealthy) :=
  claim_C3_all_unhealthy stAllUnhealthy 0 "a" ["b"] (by decide) (by decide) (by decide)

lemma minByLatency_le (l : List NodeHealth) :
    ∀ b : NodeHealth, ∀ n ∈ b :: l,
      (minByLatency b l).response_time_ms ≤ n.response_time_ms := by
  induction l with
  | nil =>
      intro b n hn
      rw [List.mem_singleton] at hn
      subst hn
      exact le_refl _
  | cons m rest ih =>
      intro b n hn
      simp only [minByLatency]
      by_cases hc : m.response_time_ms < b.response_time_ms
      · rw [if_pos hc]
        rcases List.mem_cons.mp hn with h1 | h1
        · rw [h1]
          exact le_trans (ih m m (List.mem_cons_self _ _)) (le_of_lt hc)
        · rcases List.mem_cons.mp h1 with h2 | h2
          · rw [h2]
            exact ih m m (List.mem_cons_self _ _)
          · exact ih m n (List.mem_cons_of_mem _ h2)
      · rw [if_neg hc]
        rcases List.mem_cons.mp hn with h1 | h1
        · rw [h1]
          exact ih b b (List.mem_cons_self _ _)
        · rcases List.mem_cons.mp h1 with h2 | h2
          · rw [h2]
            exact le_trans (ih b b (List.mem_cons_self _ _)) (le_of_not_lt hc)
          · exact ih b n (List.mem_cons_of_mem _ h2)

lemma minByLatency_first (l : List NodeHealth) :
    ∀ b : NodeHealth, ∃ p q, b :: l = p ++ minByLatency b l :: q
      ∧ ∀ x ∈ p, (minByLatency b l).response_time_ms < x.response_time_ms := by
  induction l with
  | nil =>
      intro b
      exact ⟨[], [], by simp [minByLatency], by simp⟩
  | cons m rest ih =>
      intro b
      simp only [minByLatency]
      by_cases hc : m.response_time_ms < b.response_time_ms
      · rw [if_pos hc]
        obtain ⟨p, q, heq, hlt⟩ := ih m
        refine ⟨b :: p, q, ?_, ?_⟩
        · rw [List.cons_append, ← heq]
        · intro x hx
          rcases List.mem_cons.mp hx with h1 | h1
          · subst h1
            exact lt_of_le_of_lt (minByLatency_le rest m m (List.mem_cons_self _ _)) hc
          · exact hlt x h1
      · rw [if_neg hc]
        obtain ⟨p, q, heq, hlt⟩ := ih b
        cases p with
        | nil =>
            rw [List.nil_append] at heq
            injection heq with hb hq
            refine ⟨[], m :: rest, ?_, by simp⟩
            rw [List.nil_append, ← hb]
        | cons y p' =>
            rw [List.cons_append] at heq
            injection heq with hb hq
            subst hb
            refine ⟨b :: m :: p', q, ?_, ?_⟩
            · simp only [List.cons_append]
              rw [← hq]
            · intro x hx
              rcases List.mem_cons.mp hx with h1 | h1
              · subst h1
                exact hlt x (List.mem_cons_self _ _)
              · rcases List.mem_cons.mp h1 with h2 | h2
                · subst h2
                  exact lt_of_lt_of_le (hlt b (List.mem_cons_self _ _)) (le_of_not_lt hc)
                · exact hlt x (List.mem_cons_of_mem _ h2)

/-- Claim C4 amended: under the "fastest" strategy the selector does not
sort the healthy set by latency; it picks as primary a single healthy
record whose `response_time_ms` is minimal among the healthy records,
ties resolved in favour of the earliest record in configured order. A
healthy record with no prior successful interaction keeps the dataclass
default `response_time_ms = 0` and is therefore treated as the fastest
(preferred, sorting first), not as infinitely slow; the remaining
healthy endpoints follow in configured order, not latency order. -/
theorem claim_C4_fastest (st : ClientState) (r : Nat) (h : NodeHealth)
    (t : List NodeHealth)
    (hstrat : st.config.load_balance_strategy = "fastest")
    (hh : st.nodes.filter (fun n => n.is_healthy) = h :: t) :
    selectNode st r = some ((minByLatency h t).url, st)
    ∧ (∀ n ∈ h :: t, (minByLatency h t).response_time_ms ≤ n.response_time_ms)
    ∧ ∃ p q, h :: t = p ++ minByLatency h t :: q
        ∧ ∀ x ∈ p, (minByLatency h t).response_time_ms < x.response_time_ms := by
  refine ⟨?_, fun n hn => minByLatency_le t h n hn, minByLatency_first t h⟩
  unfold selectNode
  rw [hh]
  simp [hstrat]

/-- Concrete instance of the amended claim C4, on the state where "a"
has a measured latency of 50 and "b" has never been measured: the
selector picks "b" (minimal stored latency 0) as primary. -/
theorem claim_C4_witness :
    selectNode stLatency 3 =
      some ((minByLatency ((NodeHealth.init "a").mark_success 50 0 100)
        [NodeHealth.init "b"]).url, stLatency)
    ∧ (∀ n ∈ ((NodeHealth.init "a").mark_success 50 0 100) :: [NodeHealth.init "b"],
        (minByLatency ((NodeHealth.init "a").mark_success 50 0 100)
          [NodeHealth.init "b"]).response_time_ms ≤ n.response_time_ms)
    ∧ ∃ p q, ((NodeHealth.init "a").mark_success 50 0 100) :: [NodeHealth.init "b"] =
          p ++ minByLatency ((NodeHealth.init "a").mark_success 50 0 100)
            [NodeHealth.init "b"] :: q
        ∧ ∀ x ∈ p, (minByLatency ((NodeHealth.init "a").mark_success 50 0 100)
            [NodeHealth.init "b"]).response_time_ms < x.response_time_ms :=
  claim_C4_fastest stLatency 3 ((NodeHealth.init "a").mark_success 50 0 100)
    [NodeHealth.init "b"] rfl (by decide)

/-- Claim C5 amended: construction never fails — `__init__` validates
nothing. An empty endpoint list or an unrecognized strategy name is
accepted; an unrecognized strategy falls back to picking the first
healthy node at selection time, and an empty endpoint list surfaces only
as a selection-time failure (the modelled IndexError), i.e. when a
request is attempted, not at construction. -/
theorem claim_C5_no_construction_failure (strat : String) (r : Nat)
    (h1 : strat ≠ "round_robin") (h2 : strat ≠ "fastest") (h3 : strat ≠ "random") :
    (∀ cfg : XAIClientConfig, cfg.node_urls = [] →
        selectNode (initClient cfg) r = none)
    ∧ (∀ (st : ClientState) (h : NodeHealth) (t : List NodeHealth),
        st.config.load_balance_strategy = strat →
        st.nodes.filter (fun n => n.is_healthy) = h :: t →
        selectNode st r = some (h.url, st)) := by
  constructor
  · intro cfg hcfg
    unfold selectNode initClient
    simp [hcfg, firstOccs]
  · intro st h t hstrat hh
    unfold selectNode
    rw [hh]
    simp [hstrat, h1, h2, h3]

/-- Concrete instance of the amended claim C5: a client built with an
empty url list and strategy "bogus" fails at selection time, and one
built with urls and strategy "bogus" selects its first healthy node. -/
theorem claim_C5_witness :
    selectNode (initClient { node_urls := [], load_balance_strategy := "bogus" }) 0 = none
    ∧ selectNode (initClient { node_urls := ["u", "v"], load_balance_strategy := "bogus" }) 0 =
        some ((NodeHealth.init "u").url,
          initClient { node_urls := ["u", "v"], load_balance_strategy := "bogus" }) := by
  have H := claim_C5_no_construction_failure "bogus" 0 (by decide) (by decide) (by decide)
  exact ⟨H.1 { node_urls := [], load_balance_strategy := "bogus" } rfl,
    H.2 (initClient { node_urls := ["u", "v"], load_balance_strategy := "bogus" })
      (NodeHealth.init "u") [NodeHealth.init "v"] rfl (by decide)⟩

lemma selectNode_state (st : ClientState) (r : Nat) (sel : String) (st1 : ClientState)
    (h : selectNode st r = some (sel, st1)) :
    st1.nodes = st.nodes ∧ st1.config = st.config := by
  unfold selectNode at h
  split at h
  · cases hu : st.config.node_urls.head? with
    | none =>
        rw [hu] at h
        simp at h
    | some u =>
        rw [hu] at h
        simp only [Option.map_some', Option.some.injEq, Prod.mk.injEq] at h
        rw [← h.2]
        exact ⟨rfl, rfl⟩
  · split_ifs at h <;>
      (simp only [Option.some.injEq, Prod.mk.injEq] at h
       rw [← h.2]
       exact ⟨rfl, rfl⟩)

/-- Claim C6: for every state whose records correspond to the configured
url list and every selection outcome (any strategy), the ordered list is
the selected primary first, then the remaining healthy endpoints in
configured order, then the unhealthy endpoints in configured order (the
latter not excluding the primary), and it contains every configured
endpoint — unhealthy nodes are never excluded from failover. -/
theorem claim_C6_order_structure (st : ClientState) (r : Nat) (sel : String)
    (st1 : ClientState)
    (hn : st.nodes.map NodeHealth.url = st.config.node_urls)
    (hsel : selectNode st r = some (sel, st1)) :
    getOrderedNodes st r =
      some (sel ::
        ((st.nodes.filter (fun n => n.is_healthy && n.url != sel)).map (fun n => n.url)
          ++ (st.nodes.filter (fun n => !n.is_healthy)).map (fun n => n.url)), st1)
    ∧ ∀ u ∈ st.config.node_urls,
        u ∈ sel ::
          ((st.nodes.filter (fun n => n.is_healthy && n.url != sel)).map (fun n => n.url)
            ++ (st.nodes.filter (fun n => !n.is_healthy)).map (fun n => n.url)) := by
  obtain ⟨hnn, _⟩ := selectNode_state st r sel st1 hsel
  constructor
  · unfold getOrderedNodes
    rw [hsel]
    simp only [Option.map_some']
    rw [hnn]
  · intro u hu
    rw [← hn] at hu
    obtain ⟨n, hmem, hurl⟩ := List.mem_map.mp hu
    by_cases hh : n.is_healthy = true
    · by_cases hs : n.url = sel
      · rw [← hurl, hs]
        exact List.mem_cons_self _ _
      · refine List.mem_cons_of_mem _ (List.mem_append_left _ ?_)
        exact List.mem_map.mpr ⟨n, List.mem_filter.mpr ⟨hmem, by simp [hh, hs]⟩, hurl⟩
    · refine List.mem_cons_of_mem _ (List.mem_append_right _ ?_)
      refine List.mem_map.mpr ⟨n, List.mem_filter.mpr ⟨hmem, ?_⟩, hurl⟩
      simp only [Bool.not_eq_true] at hh
      simp [hh]

/-- Concrete instance of claim C6 on a fresh two-node client: primary
"a", remaining healthy ["b"], no unhealthy tail. -/
theorem claim_C6_witness :
    getOrderedNodes (initClient (cfgAB "fastest")) 0 =
      some ("a" ::
        (((initClient (cfgAB "fastest")).nodes.filter
            (fun n => n.is_healthy && n.url != "a")).map (fun n => n.url)
          ++ ((initClient (cfgAB "fastest")).nodes.filter
            (fun n => !n.is_healthy)).map (fun n => n.url)),
       initClient (cfgAB "fastest"))
    ∧ ∀ u ∈ (initClient (cfgAB "fastest")).config.node_urls,
        u ∈ "a" ::
          (((initClient (cfgAB "fastest")).nodes.filter
              (fun n => n.is_healthy && n.url != "a")).map (fun n => n.url)
            ++ ((initClient (cfgAB "fastest")).nodes.filter
              (fun n => !n.is_healthy)).map (fun n => n.url)) :=
  claim_C6_order_structure (initClient (cfgAB "fastest")) 0 "a"
    (initClient (cfgAB "fastest")) (by decide) (by decide)

lemma selectNode_round_robin (st : ClientState) (r : Nat) (a b : NodeHealth)
    (hstrat : st.config.load_balance_strategy = "round_robin")
    (hh : st.nodes.filter (fun n => n.is_healthy) = [a, b]) :
    selectNode st r =
      some ((if (st.current_index + 1) % 2 = 0 then a else b).url,
            { st with current_index := (st.current_index + 1) % 2 }) := by
  unfold selectNode
  rw [hh]
  simp only [hstrat, if_pos, List.length_cons, List.length_nil, Nat.zero_add,
    Nat.reduceAdd, ite_true]
  rcases Nat.mod_two_eq_zero_or_one (st.current_index + 1) with hm | hm <;> simp [hm]

/-- Claim C8: under the round-robin strategy, with exactly two healthy
records (with distinct urls) and unchanged health state, three
consecutive selector calls alternate between the two urls: the second
call differs from the first, and the third returns to the first
(wrapping with period 2, the healthy-set size). -/
theorem claim_C8_round_robin (st : ClientState) (r1 r2 r3 : Nat) (a b : NodeHealth)
    (hstrat : st.config.load_balance_strategy = "round_robin")
    (hh : st.nodes.filter (fun n => n.is_healthy) = [a, b])
    (hab : a.url ≠ b.url) :
    ∃ u1 st1 u2 st2 u3 st3,
      selectNode st r1 = some (u1, st1)
      ∧ selectNode st1 r2 = some (u2, st2)
      ∧ selectNode st2 r3 = some (u3, st3)
      ∧ u1 ≠ u2 ∧ u2 ≠ u3 ∧ u3 = u1
      ∧ u1 ∈ [a.url, b.url] ∧ u2 ∈ [a.url, b.url] := by
  have h1 := selectNode_round_robin st r1 a b hstrat hh
  rcases Nat.mod_two_eq_zero_or_one (st.current_index + 1) with hm | hm
  · rw [hm] at h1
    simp only [if_pos rfl, ite_true] at h1
    have h2 := selectNode_round_robin { st with current_index := 0 } r2 a b hstrat hh
    simp only [Nat.zero_add, Nat.reduceMod, Nat.one_mod] at h2
    norm_num at h2
    have h3 := selectNode_round_robin { st with current_index := 1 } r3 a b hstrat hh
    norm_num at h3
    exact ⟨a.url, _, b.url, _, a.url, _, h1, h2, h3, hab, Ne.symm hab, rfl,
      by simp, by simp⟩
  · rw [hm] at h1
    norm_num at h1
    have h2 := selectNode_round_robin { st with current_index := 1 } r2 a b hstrat hh
    norm_num at h2
    have h3 := selectNode_round_robin { st with current_index := 0 } r3 a b hstrat hh
    norm_num at h3
    exact ⟨b.url, _, a.url, _, b.url, _, h1, h2, h3, Ne.symm hab, hab, rfl,
      by simp, by simp⟩

/-- Concrete instance of claim C8 on a fresh two-node round-robin
client. -/
theorem claim_C8_witness :
    ∃ u1 st1 u2 st2 u3 st3,
      selectNode (initClient (cfgAB "round_robin")) 0 = some (u1, st1)
      ∧ selectNode st1 0 = some (u2, st2)
      ∧ selectNode st2 0 = some (u3, st3)
      ∧ u1 ≠ u2 ∧ u2 ≠ u3 ∧ u3 = u1
      ∧ u1 ∈ [(NodeHealth.init "a").url, (NodeHealth.init "b").url]
      ∧ u2 ∈ [(NodeHealth.init "a").url, (NodeHealth.init "b").url] :=
  claim_C8_round_robin (initClient (cfgAB "round_robin")) 0 0 0
    (NodeHealth.init "a") (NodeHealth.init "b") rfl (by decide) (by decide)

/-- Claim C9: `get_nodes_status` is a pure, deterministic read — it
leaves the client state exactly as it found it, and two consecutive
calls with no intervening activity return identical snapshots. -/
theorem claim_C9_status_pure (st : ClientState) :
    (get_nodes_status st).2 = st
    ∧ (get_nodes_status ((get_nodes_status st).2)).1 = (get_nodes_status st).1 :=
  ⟨rfl, rfl⟩

lemma updateNode_map_chain (nodes : List NodeHealth) (u : String)
    (f : NodeHealth → NodeHealth) (hf : ∀ n, (f n).chain_height = n.chain_height) :
    (updateNode nodes u f).map (fun n => n.chain_height)
      = nodes.map (fun n => n.chain_height) := by
  unfold updateNode
  rw [List.map_map]
  apply List.map_congr_left
  intro n _
  by_cases h : n.url = u <;> simp [h, hf]

lemma requestLoop_chain_height (oracle : Nat → AttemptOutcome) (urls : List String) :
    ∀ (i : Nat) (e0 : Option String) (st : ClientState),
    ((requestLoop oracle urls i e0 st).2).nodes.map (fun n => n.chain_height)
      = st.nodes.map (fun n => n.chain_height) := by
  induction urls with
  | nil =>
      intro i e0 st
      cases e0 <;> rfl
  | cons u rest ih =>
      intro i e0 st
      cases ho : oracle i with
      | httpError e now =>
          rw [requestLoop_consHttpError oracle u rest i e0 st e now ho, ih]
          exact updateNode_map_chain _ _ _
            (fun n => by simp [NodeHealth.mark_failure])
      | okBody t body now =>
          simp only [requestLoop, ho]
          exact updateNode_map_chain _ _ _
            (fun n => by simp [NodeHealth.mark_success])
      | okBadBody t e now now2 =>
          rw [requestLoop_consOkBadBody oracle u rest i e0 st t e now now2 ho, ih]
          exact updateNode_map_chain _ _ _
            (fun n => by simp [NodeHealth.mark_success, NodeHealth.mark_failure])

/-- Claim C10: `mark_success` leaves `chain_height` unchanged whenever
the reported height is not strictly positive, and sets it only for a
strictly positive height (as a probe success with a positive reported
height does); `mark_failure` never touches it; and the request path,
which always passes height 0, preserves every record's chain height
across an entire `_request` execution. -/
theorem claim_C10_chain_height_frame (n : NodeHealth) (t : ℚ) (hgt : Int)
    (now : ℚ) (e : String) (oracle : Nat → AttemptOutcome) (urls : List String)
    (i : Nat) (e0 : Option String) (st : ClientState) :
    (hgt ≤ 0 → (n.mark_success t hgt now).chain_height = n.chain_height)
    ∧ (0 < hgt → (n.mark_success t hgt now).chain_height = hgt)
    ∧ (0 < hgt → (checkNodeHealth n (ProbeOutcome.ok t hgt now)).chain_height = hgt)
    ∧ (n.mark_failure e now).chain_height = n.chain_height
    ∧ ((requestLoop oracle urls i e0 st).2).nodes.map (fun m => m.chain_height)
        = st.nodes.map (fun m => m.chain_height) := by
  refine ⟨?_, ?_, ?_, ?_, requestLoop_chain_height oracle urls i e0 st⟩
  · intro h
    simp [NodeHealth.mark_success, not_lt.mpr h]
  · intro h
    simp [NodeHealth.mark_success, h]
  · intro h
    simp [checkNodeHealth, NodeHealth.mark_success, h]
  · simp [NodeHealth.mark_failure]

/-- Concrete instance of claim C10: a success with height 0 preserves
the stored height, a probe success with height 7 sets it, and a full
failover run preserves the heights of all records. -/
theorem claim_C10_witness :
    ((NodeHealth.init "u").mark_success 5 0 1).chain_height =
        (NodeHealth.init "u").chain_height
    ∧ ((NodeHealth.init "u").mark_success 5 7 1).chain_height = 7
    ∧ (checkNodeHealth (NodeHealth.init "u") (ProbeOutcome.ok 5 7 1)).chain_height = 7
    ∧ ((requestLoop failThenOkOracle ["a", "b"] 0 none
          (initClient (cfgAB "fastest"))).2).nodes.map (fun m => m.chain_height)
        = (initClient (cfgAB "fastest")).nodes.map (fun m => m.chain_height) := by
  have H0 := claim_C10_chain_height_frame (NodeHealth.init "u") 5 0 1 "e"
    failThenOkOracle ["a", "b"] 0 none (initClient (cfgAB "fastest"))
  have H7 := claim_C10_chain_height_frame (NodeHealth.init "u") 5 7 1 "e"
    failThenOkOracle ["a", "b"] 0 none (initClient (cfgAB "fastest"))
  exact ⟨H0.1 (by decide), H7.2.1 (by decide), H7.2.2.1 (by decide), H0.2.2.2.2⟩

/-- Concrete instance of claim C9 on the two-node latency state. -/
theorem claim_C9_witness :
    (get_nodes_status stLatency).2 = stLatency
    ∧ (get_nodes_status ((get_nodes_status stLatency).2)).1 =
        (get_nodes_status stLatency).1 :=
  claim_C9_status_pure stLatency
